import Mathlib

/-!
# A verification model of the nosqlite-rust engine

This file gives a shallow embedding of the core of the `nosqlite-rust`
repository — the JSON data model, the recursive schema validator, the
collection/catalog CRUD operations, the query service, and the encrypted
persistence layer — and proves properties of the embedded definitions.

Modelling conventions:
* `serde_json::Value` becomes the inductive `Json`; objects are association
  lists in insertion order and numbers are modelled as `Int` (the claims under
  study never depend on float arithmetic).
* Rust methods that mutate `&mut self` and return `Result<(), E>` become pure
  functions returning `Except NosqliteError` of the new state.
* The system clock (`utils::now`) and the UUID generator are external inputs;
  they appear as explicit `t : Nat` / `id : String` parameters.
* The filesystem, the AES-256-GCM core of the `aes_gcm` crate and the
  `serde_json` parser are external to the repository; they appear as explicit
  parameters (`Fs`, `aeadDec`, `parse`).  Rust panics are modelled by the
  `panics` outcome of the `Outcome` type.
* The error handler only logs; the log channel is not modelled, and the
  in-place partial mutation that `update_documents_field` leaves behind on its
  error path is discarded (no theorem below inspects state after a failed
  call).
-/

/-- Model of `serde_json::Value`. -/
inductive Json where
  | null : Json
  | bool (b : Bool) : Json
  | num (n : Int) : Json
  | str (s : String) : Json
  | arr (elems : List Json) : Json
  | obj (fields : List (String × Json)) : Json
deriving Repr

namespace Json

mutual

/-- Structural equality of JSON values, the model of `serde_json`'s
`PartialEq` (deep structural comparison).  Written as a recursion over the
nested inductive, one function per nesting position. -/
def beq (a b : Json) : Bool :=
  match a, b with
  | .null, .null => true
  | .bool x, .bool y => x == y
  | .num x, .num y => x == y
  | .str x, .str y => x == y
  | .arr xs, .arr ys => beqElems xs ys
  | .obj ps, .obj qs => beqPairs ps qs
  | _, _ => false

def beqElems (xs ys : List Json) : Bool :=
  match xs, ys with
  | [], [] => true
  | a :: xs, b :: ys => beq a b && beqElems xs ys
  | _, _ => false

def beqPairs (ps qs : List (String × Json)) : Bool :=
  match ps, qs with
  | [], [] => true
  | (ka, va) :: ps, (kb, vb) :: qs => ka == kb && beq va vb && beqPairs ps qs
  | _, _ => false

end

mutual

theorem beq_eq : ∀ a b : Json, beq a b = true ↔ a = b
  | .null, b => by cases b <;> simp [beq]
  | .bool x, b => by cases b <;> simp [beq]
  | .num x, b => by cases b <;> simp [beq]
  | .str x, b => by cases b <;> simp [beq]
  | .arr xs, b => by
      cases b with
      | arr ys => simpa [beq] using beqElems_eq xs ys
      | null => simp [beq]
      | bool y => simp [beq]
      | num y => simp [beq]
      | str y => simp [beq]
      | obj qs => simp [beq]
  | .obj ps, b => by
      cases b with
      | obj qs => simpa [beq] using beqPairs_eq ps qs
      | null => simp [beq]
      | bool y => simp [beq]
      | num y => simp [beq]
      | str y => simp [beq]
      | arr ys => simp [beq]

theorem beqElems_eq : ∀ xs ys : List Json, beqElems xs ys = true ↔ xs = ys
  | [], [] => by simp [beqElems]
  | a :: xs, b :: ys => by
      rw [beqElems, Bool.and_eq_true, beq_eq a b, beqElems_eq xs ys, List.cons_eq_cons]
  | [], _ :: _ => by simp [beqElems]
  | _ :: _, [] => by simp [beqElems]

theorem beqPairs_eq : ∀ ps qs : List (String × Json), beqPairs ps qs = true ↔ ps = qs
  | [], [] => by simp [beqPairs]
  | (ka, va) :: ps, (kb, vb) :: qs => by
      rw [beqPairs, Bool.and_eq_true, Bool.and_eq_true, beq_eq va vb, beqPairs_eq ps qs,
        List.cons_eq_cons, beq_iff_eq, Prod.mk.injEq, and_assoc]
  | [], _ :: _ => by simp [beqPairs]
  | _ :: _, [] => by simp [beqPairs]

end

instance : BEq Json := ⟨beq⟩

instance : LawfulBEq Json where
  eq_of_beq h := (beq_eq _ _).mp h
  rfl := (beq_eq _ _).mpr rfl

instance : DecidableEq Json := fun a b =>
  decidable_of_iff (beq a b = true) (beq_eq a b)

/-- `Value::is_object`. -/
def isObj : Json → Bool
  | .obj _ => true
  | _ => false

end Json

/-- Lookup in a JSON object map (`serde_json::Map::get`); object keys are
unique, so first-match lookup in the association list is the map lookup. -/
def jlookup (fields : List (String × Json)) (k : String) : Option Json :=
  match fields with
  | [] => none
  | (k', v) :: rest => if k' = k then some v else jlookup rest k

/-- ASCII lowercasing of a string, the model of `str::to_lowercase` as used on
schema type names (the two coincide on ASCII input, and the recognised type
names are all ASCII). -/
def lowercase (s : String) : String := String.mk (s.data.map Char.toLower)

/-- Model of `utils::type_matches`: case-insensitive type-name check of a JSON
value. Unrecognised type names fail. -/
def type_matches (expected : String) (val : Json) : Bool :=
  match lowercase expected with
  | "string" => match val with | .str _ => true | _ => false
  | "number" => match val with | .num _ => true | _ => false
  | "boolean" => match val with | .bool _ => true | _ => false
  | "array" => match val with | .arr _ => true | _ => false
  | "object" => match val with | .obj _ => true | _ => false
  | _ => false

/-- Model of `utils::validate_against_structure`: recursive structural
validation of a document object against a schema object. -/
def validate_against_structure (doc schema : List (String × Json)) : Bool :=
  match schema with
  | [] => true
  | (key, expected) :: rest =>
    match jlookup doc key with
    | some actual =>
      match expected, actual with
      | .str sType, val => type_matches sType val && validate_against_structure doc rest
      | .obj subSchema, .obj subDoc =>
          validate_against_structure subDoc subSchema && validate_against_structure doc rest
      | _, _ => false
    | none => false
termination_by sizeOf schema

/-- Splitting a character list at a separator character
(model of `str::split` / `String::splitOn`). -/
def splitChars (sep : Char) : List Char → List Char → List String
  | [], acc => [String.mk acc.reverse]
  | c :: rest, acc =>
    if c = sep then String.mk acc.reverse :: splitChars sep rest []
    else splitChars sep rest (c :: acc)

/-- Modelled from the spec: `utils::get_nested_value` is used by the collection
operations but its defining revision of `utils.rs` is not in the sources (only
its callers are).  Per the spec it resolves `field` as a dot-separated path
into nested objects and returns the value found there, if any. -/
def get_nested_value (v : Json) (field : String) : Option Json :=
  walk v (splitChars '.' field.data [])
where
  walk : Json → List String → Option Json
    | v, [] => some v
    | .obj fields, seg :: rest =>
      match jlookup fields seg with
      | some v' => walk v' rest
      | none => none
    | _, _ :: _ => none

theorem get_nested_value_nested_path :
    get_nested_value (.obj [("a", .obj [("b", .num 1)])]) "a.b" = some (.num 1) := by
  simp [get_nested_value, splitChars, get_nested_value.walk, jlookup]

/-- Escaping of one character inside a JSON string literal, as `serde_json`'s
compact printer does for the characters that can occur in the error-message
renderings below. -/
def escChar (c : Char) : String :=
  if c = '"' then "\\\""
  else if c = '\\' then "\\\\"
  else if c = '\n' then "\\n"
  else if c = '\t' then "\\t"
  else if c = '\r' then "\\r"
  else String.mk [c]

def escapeString (s : String) : String := String.join (s.data.map escChar)

mutual

/-- Compact JSON printing, the model of `Display for serde_json::Value`
(used by the `format!` calls that build error details). -/
def Json.render : Json → String
  | .null => "null"
  | .bool true => "true"
  | .bool false => "false"
  | .num n => toString n
  | .str s => "\"" ++ escapeString s ++ "\""
  | .arr xs => "[" ++ Json.renderList xs ++ "]"
  | .obj fs => "\x7b" ++ Json.renderFields fs ++ "\x7d"

def Json.renderList : List Json → String
  | [] => ""
  | [x] => Json.render x
  | x :: xs => Json.render x ++ "," ++ Json.renderList xs

def Json.renderFields : List (String × Json) → String
  | [] => ""
  | [(k, v)] => "\"" ++ escapeString k ++ "\":" ++ Json.render v
  | (k, v) :: xs => "\"" ++ escapeString k ++ "\":" ++ Json.render v ++ "," ++ Json.renderFields xs

end

/-- Model of `NosqliteError` from `engine/error/error.rs`.  The extra
`CollectionNameEmpty` variant is modelled from the spec ("fails with a
name-empty error if `name` is empty"): `Database::add_collection` constructs
it, but the revision of `error.rs` declaring it is not among the sources. -/
inductive NosqliteError where
  | DatabaseNotFound (s : String)
  | DatabaseAlreadyExists (s : String)
  | InvalidDatabaseFormat (s : String)
  | CollectionAlreadyExists (s : String)
  | CollectionNotFound (s : String)
  | InvalidCollectionStructure (s : String)
  | DocumentInvalid (s : String)
  | DocumentNotFound (s : String)
  | IoError (s : String)
  | SerializationError (s : String)
  | DeserializationError (s : String)
  | EncryptionError (s : String)
  | HexDecodeError (s : String)
  | Base64DecodeError (s : String)
  | CollectionNameEmpty
deriving Repr, DecidableEq

/-- Model of `Display for NosqliteError` (`e.to_string()`); the
`CollectionNameEmpty` line is modelled from the spec. -/
def NosqliteError.toDisplay : NosqliteError → String
  | .DatabaseNotFound s => "Database not found: `" ++ s ++ "`"
  | .DatabaseAlreadyExists s => "Database already exists: `" ++ s ++ "`"
  | .InvalidDatabaseFormat s => "Invalid database format: " ++ s
  | .CollectionAlreadyExists s => "Collection already exists: `" ++ s ++ "`"
  | .CollectionNotFound s => "Collection not found: `" ++ s ++ "`"
  | .InvalidCollectionStructure s => "Invalid collection structure: " ++ s
  | .DocumentInvalid s => "Document invalid: " ++ s
  | .DocumentNotFound s => "Document not found: `" ++ s ++ "`"
  | .IoError s => "IO error: " ++ s
  | .SerializationError s => "Serialization error: " ++ s
  | .DeserializationError s => "Deserialization error: " ++ s
  | .EncryptionError s => "Encryption error: " ++ s
  | .HexDecodeError s => "Hex decode error: " ++ s
  | .Base64DecodeError s => "Base64 decode error: " ++ s
  | .CollectionNameEmpty => "Collection name empty"

/-- Model of `Document` (`engine/models/document/model.rs`). -/
structure Document where
  id : String
  data : Json
  updated_at : Nat
  created_at : Nat
deriving Repr, DecidableEq

/-- Model of `Document::new`; the UUID and the clock reading are external
inputs, passed as `id` and `t`. -/
def Document.new (id : String) (data : Json) (t : Nat) : Document :=
  { id := id, data := data, created_at := t, updated_at := t }

/-- Model of `Collection` (`engine/models/collection/model.rs`). -/
structure Collection where
  name : String
  documents : List Document
  created_at : Nat
  «structure» : Json
deriving Repr, DecidableEq

/-- Model of `Collection::new`. -/
def Collection.new (name : String) («structure» : Json) (t : Nat) : Collection :=
  { name := name, «structure» := «structure», documents := [], created_at := t }

/-- Model of `Database` (`engine/models/database/model.rs`). -/
structure Database where
  collections : List Collection
deriving Repr, DecidableEq

/-- The error detail built by the bulk collection operations:
`format!("No document found where '{}' == '{}'", field_name, field_value)`. -/
def noDocMsg (field_name : String) (field_value : Json) : String :=
  "No document found where '" ++ field_name ++ "' == '" ++ field_value.render ++ "'"

/-- Model of `Collection::add_document`. -/
def Collection.add_document (c : Collection) (data : Json) (id : String) (t : Nat) :
    Except NosqliteError Collection :=
  match data with
  | .obj doc_map =>
    match c.«structure» with
    | .obj expected_structure =>
      if validate_against_structure doc_map expected_structure then
        .ok { c with documents := c.documents ++ [Document.new id data t] }
      else
        .error (.DocumentInvalid "Document does not match the collection's structure")
    | _ => .error (.InvalidCollectionStructure "Collection structure is not a valid JSON object")
  | _ => .error (.DocumentInvalid "Document must be a JSON object")

/-- The match predicate of the bulk collection operations:
`get_nested_value(&doc.data, field_name) == Some(field_value)`. -/
def matchesField (field_name : String) (field_value : Json) (d : Document) : Bool :=
  get_nested_value d.data field_name = some field_value

/-- Model of `Collection::update_documents` (bulk full replacement).  The Rust
code collects the matching indices of the untouched document list and then
overwrites each one; mapping over the list with the same predicate is that
same update. -/
def Collection.update_documents (c : Collection) (field_name : String)
    (field_value new_data : Json) (t : Nat) : Except NosqliteError Collection :=
  match new_data with
  | .obj doc_map =>
    if !(match c.«structure» with
         | .obj expected_structure => validate_against_structure doc_map expected_structure
         | _ => true) then
      .error (.DocumentInvalid "New data does not match the collection's structure")
    else if c.documents.all (fun d => !matchesField field_name field_value d) then
      .error (.DocumentNotFound (noDocMsg field_name field_value))
    else
      .ok { c with
            documents := c.documents.map (fun d =>
              if matchesField field_name field_value d then
                { d with data := new_data, updated_at := t }
              else d) }
  | _ => .error (.DocumentInvalid "New data must be a JSON object")

/-- `serde_json::Map::insert`: overwrite the value of an existing key, or add
the binding. -/
def insertField : List (String × Json) → String → Json → List (String × Json)
  | [], k, v => [(k, v)]
  | (k', v') :: rest, k, v =>
    if k' = k then (k, v) :: rest else (k', v') :: insertField rest k v

/-- The per-document pass of `Collection::update_documents_field`: patch every
matching document, failing on a matching document whose data is not an object
(the failed Rust call leaves earlier patches in place; that partially-mutated
state is discarded here and never inspected by a theorem). -/
def patchDocs (field_name : String) (field_value : Json) (target_field : String)
    (value : Json) (t : Nat) : List Document → Except NosqliteError (List Document)
  | [] => .ok []
  | d :: rest =>
    if matchesField field_name field_value d then
      match d.data with
      | .obj doc_map =>
        match patchDocs field_name field_value target_field value t rest with
        | .ok rest' =>
          .ok ({ d with data := .obj (insertField doc_map target_field value),
                        updated_at := t } :: rest')
        | .error e => .error e
      | _ => .error (.DocumentInvalid "Document data is not a JSON object")
    else
      match patchDocs field_name field_value target_field value t rest with
      | .ok rest' => .ok (d :: rest')
      | .error e => .error e

/-- Model of `Collection::update_documents_field` (bulk single-field patch). -/
def Collection.update_documents_field (c : Collection) (field_name : String)
    (field_value : Json) (target_field : String) (value : Json) (t : Nat) :
    Except NosqliteError Collection :=
  if c.documents.all (fun d => !matchesField field_name field_value d) then
    .error (.DocumentNotFound (noDocMsg field_name field_value))
  else
    match patchDocs field_name field_value target_field value t c.documents with
    | .ok docs => .ok { c with documents := docs }
    | .error e => .error e

/-- Model of `Collection::delete_documents`. -/
def Collection.delete_documents (c : Collection) (field_name : String)
    (field_value : Json) : Except NosqliteError Collection :=
  if (c.documents.filter (fun d => !matchesField field_name field_value d)).length =
      c.documents.length then
    .error (.DocumentNotFound (noDocMsg field_name field_value))
  else
    .ok { c with
          documents := c.documents.filter (fun d => !matchesField field_name field_value d) }

/-- Model of `Collection::get_document` (first match wins). -/
def Collection.get_document (c : Collection) (field_name : String) (field_value : Json) :
    Option Document :=
  c.documents.find? (matchesField field_name field_value)

/-- Model of `Database::new` (the path argument is unused by the source). -/
def Database.new : Database := { collections := [] }

/-- Model of `Database::add_collection`. -/
def Database.add_collection (db : Database) (name : String) («structure» : Json)
    (t : Nat) : Except NosqliteError Database :=
  if db.collections.any (fun c => c.name = name) then
    .error (.CollectionAlreadyExists name)
  else if name = "" then
    .error .CollectionNameEmpty
  else if !«structure».isObj then
    .error (.DocumentInvalid "The structure must be a JSON object")
  else
    .ok { db with collections := db.collections ++ [Collection.new name «structure» t] }

/-- Model of `Database::remove_collection`. -/
def Database.remove_collection (db : Database) (name : String) :
    Except NosqliteError Database :=
  match db.collections.findIdx? (fun c => c.name = name) with
  | none => .error (.CollectionNotFound name)
  | some i => .ok { db with collections := db.collections.eraseIdx i }

/-- Model of `Database::get_collection`. -/
def Database.get_collection (db : Database) (name : String) : Option Collection :=
  db.collections.find? (fun c => c.name = name)

/-- Model of `document_service::matches_filter`: a flat equality filter; any
non-object document or non-object filter matches unconditionally. -/
def matches_filter (doc filter : Json) : Bool :=
  match doc, filter with
  | .obj doc_obj, .obj filter_obj =>
    filter_obj.all (fun kv =>
      match jlookup doc_obj kv.1 with
      | some actual => actual == kv.2
      | none => false)
  | _, _ => true

/-- Model of `document_service::apply_projection`: keep the fields whose
projection flag is the number `1`; an empty projection, a non-object document
or a non-object projection returns the document unchanged. -/
def apply_projection (doc projection : Json) : Json :=
  match doc, projection with
  | .obj doc_obj, .obj proj_obj =>
    if proj_obj.isEmpty then .obj doc_obj
    else
      .obj (proj_obj.foldl (fun acc kv =>
        if kv.2 == Json.num 1 then
          match jlookup doc_obj kv.1 with
          | some v => acc ++ [(kv.1, v)]
          | none => acc
        else acc) [])
  | _, _ => doc

/-- Model of `document_service::get_documents` (the `find` operation). -/
def get_documents (db : Database) (collection_name : String) (filter projection : Json) :
    Except NosqliteError (List Json) :=
  match db.get_collection collection_name with
  | none => .error (.CollectionNotFound ("Collection '" ++ collection_name ++ "' not found"))
  | some collection =>
    .ok ((collection.documents.filter (fun d => matches_filter d.data filter)).map
      (fun d => apply_projection d.data projection))

/-- Outcome of a Rust call that can also panic: `panics` models an abort by
`panic!`/out-of-range indexing, as distinct from a returned `Err`. -/
inductive Outcome (α : Type) where
  | ok (a : α)
  | err (e : NosqliteError)
  | panics (msg : String)
deriving Repr, DecidableEq

/-- Hex value of one character, as the `hex` crate accepts them. -/
def hexVal (c : Char) : Option Nat :=
  if '0' ≤ c ∧ c ≤ '9' then some (c.toNat - 48)
  else if 'a' ≤ c ∧ c ≤ 'f' then some (c.toNat - 87)
  else if 'A' ≤ c ∧ c ≤ 'F' then some (c.toNat - 55)
  else none

def hexPairs : List Char → Except String (List Nat)
  | [] => .ok []
  | [_] => .error "Odd number of digits"
  | c1 :: c2 :: rest =>
    match hexVal c1, hexVal c2 with
    | some hi, some lo => (hexPairs rest).map (fun bs => (16 * hi + lo) :: bs)
    | _, _ => .error "Invalid character"

/-- Model of `hex::decode`: bytes from an even-length hex string. -/
def hexDecode (s : String) : Except String (List Nat) :=
  if s.data.length % 2 ≠ 0 then .error "Odd number of digits"
  else hexPairs s.data

/-- Model of `str::trim` (ASCII whitespace suffices for the key files at
hand). -/
def trimString (s : String) : String :=
  String.mk (((s.data.dropWhile Char.isWhitespace).reverse.dropWhile
    Char.isWhitespace).reverse)

/-- Value of one character in the standard base64 alphabet. -/
def b64Val (c : Char) : Option Nat :=
  if 'A' ≤ c ∧ c ≤ 'Z' then some (c.toNat - 65)
  else if 'a' ≤ c ∧ c ≤ 'z' then some (c.toNat - 71)
  else if '0' ≤ c ∧ c ≤ '9' then some (c.toNat + 4)
  else if c = '+' then some 62
  else if c = '/' then some 63
  else none

/-- Model of `base64::engine::general_purpose::STANDARD.decode`: quads of the
standard alphabet with canonical `=` padding and zero trailing bits. -/
def base64Quads : List Char → Except String (List Nat)
  | [] => .ok []
  | c1 :: c2 :: c3 :: c4 :: rest =>
    match b64Val c1, b64Val c2 with
    | some v1, some v2 =>
      if c3 = '=' then
        if c4 = '=' ∧ rest = [] then
          if v2 % 16 = 0 then .ok [v1 * 4 + v2 / 16] else .error "Invalid last symbol"
        else .error "Invalid byte"
      else
        match b64Val c3 with
        | some v3 =>
          if c4 = '=' then
            if rest = [] then
              if v3 % 4 = 0 then .ok [v1 * 4 + v2 / 16, v2 % 16 * 16 + v3 / 4]
              else .error "Invalid last symbol"
            else .error "Invalid byte"
          else
            match b64Val c4 with
            | some v4 =>
              (base64Quads rest).map
                (fun bs => (v1 * 4 + v2 / 16) :: (v2 % 16 * 16 + v3 / 4) :: (v3 % 4 * 64 + v4) :: bs)
            | none => .error "Invalid byte"
        | none => .error "Invalid byte"
    | _, _ => .error "Invalid byte"
  | _ => .error "Invalid input length"

def base64Decode (s : String) : Except String (List Nat) := base64Quads s.data

/-- Whether a byte is a UTF-8 continuation byte, and its payload. -/
def utf8Cont (b : Nat) : Option Nat :=
  if 0x80 ≤ b ∧ b ≤ 0xBF then some (b - 0x80) else none

/-- Model of `String::from_utf8`: strict UTF-8 decoding (rejecting overlong
forms, surrogates and out-of-range codepoints, as Rust does). -/
def utf8Decode : List Nat → Option (List Char)
  | [] => some []
  | b :: rest =>
    if b < 0x80 then
      (utf8Decode rest).map (fun cs => Char.ofNat b :: cs)
    else if 0xC2 ≤ b ∧ b ≤ 0xDF then
      match rest with
      | b2 :: rest2 =>
        match utf8Cont b2 with
        | some p2 => (utf8Decode rest2).map (fun cs => Char.ofNat ((b - 0xC0) * 64 + p2) :: cs)
        | none => none
      | [] => none
    else if 0xE0 ≤ b ∧ b ≤ 0xEF then
      match rest with
      | b2 :: b3 :: rest2 =>
        let lo2 := if b = 0xE0 then 0xA0 else 0x80
        let hi2 := if b = 0xED then 0x9F else 0xBF
        if lo2 ≤ b2 ∧ b2 ≤ hi2 then
          match utf8Cont b3 with
          | some p3 =>
            (utf8Decode rest2).map
              (fun cs => Char.ofNat ((b - 0xE0) * 4096 + (b2 - 0x80) * 64 + p3) :: cs)
          | none => none
        else none
      | _ => none
    else if 0xF0 ≤ b ∧ b ≤ 0xF4 then
      match rest with
      | b2 :: b3 :: b4 :: rest2 =>
        let lo2 := if b = 0xF0 then 0x90 else 0x80
        let hi2 := if b = 0xF4 then 0x8F else 0xBF
        if lo2 ≤ b2 ∧ b2 ≤ hi2 then
          match utf8Cont b3, utf8Cont b4 with
          | some p3, some p4 =>
            (utf8Decode rest2).map
              (fun cs =>
                Char.ofNat ((b - 0xF0) * 262144 + (b2 - 0x80) * 4096 + p3 * 64 + p4) :: cs)
          | _, _ => none
        else none
      | _ => none
    else none

def utf8DecodeString (bytes : List Nat) : Option String :=
  (utf8Decode bytes).map String.mk

/-- The filesystem as `File` sees it: the key file and the store file, each
absent (`none`), unreadable (`some (.error e)`) or readable with the given
text content. -/
structure Fs where
  keyFile : Option (Except String String)
  dbFile : Option (Except String String)
deriving Repr

namespace File

/-- Model of `File::load_or_generate_key`.  `freshKey` is the random key the
generator would produce and `writeRes` the outcome of persisting it, both
external inputs.  The read path mirrors the source exactly: hex-decode the
trimmed content, then `key.copy_from_slice(&bytes[..32])`, whose slice
indexing panics when fewer than 32 bytes were decoded and silently keeps only
the first 32 when more were. -/
def load_or_generate_key (keyFile : Option (Except String String))
    (freshKey : List Nat) (writeRes : Except String Unit) : Outcome (List Nat) :=
  match keyFile with
  | some (.error e) => .err (.IoError e)
  | some (.ok content) =>
    match hexDecode (trimString content) with
    | .error e => .err (.HexDecodeError e)
    | .ok bytes =>
      if bytes.length < 32 then
        .panics "range end index 32 out of range for slice"
      else .ok (bytes.take 32)
  | none =>
    match writeRes with
    | .error e => .err (.IoError e)
    | .ok _ => .ok freshKey

/-- Model of `File::decrypt`.  `aeadDec` is the AES-256-GCM open operation of
the external `aes_gcm` crate (key, nonce, ciphertext-with-tag to plaintext);
the error detail strings of the external errors are stand-ins.  The
`split_at(12)` of the source panics when the base64 payload decodes to fewer
than 12 bytes. -/
def decrypt (aeadDec : List Nat → List Nat → List Nat → Option (List Nat))
    (data : String) (key : List Nat) : Outcome String :=
  match base64Decode data with
  | .error e => .err (.Base64DecodeError e)
  | .ok decoded =>
    if decoded.length < 12 then .panics "mid > len"
    else
      match aeadDec key (decoded.take 12) (decoded.drop 12) with
      | none => .err (.EncryptionError "aead::Error")
      | some plaintext =>
        match utf8DecodeString plaintext with
        | none => .err (.DeserializationError "invalid utf-8 sequence")
        | some s => .ok s

/-- Model of `File::load_or_create`.  `parse` is `serde_json::from_str`
specialised to `Database` (external); a parse failure is logged as a
`DeserializationError` and then returned as the `InvalidDatabaseFormat`
error that the caller sees. -/
def load_or_create (aeadDec : List Nat → List Nat → List Nat → Option (List Nat))
    (parse : String → Option Database) (fs : Fs) (freshKey : List Nat)
    (writeRes : Except String Unit) : Outcome Database :=
  match load_or_generate_key fs.keyFile freshKey writeRes with
  | .panics m => .panics m
  | .err e => .err e
  | .ok key =>
    match fs.dbFile with
    | some (.error e) => .err (.IoError e)
    | some (.ok encrypted) =>
      match decrypt aeadDec encrypted key with
      | .panics m => .panics m
      | .err e => .err (.EncryptionError e.toDisplay)
      | .ok decrypted =>
        match parse decrypted with
        | none => .err (.InvalidDatabaseFormat "Failed to deserialize database")
        | some db => .ok db
    | none => .ok Database.new

end File

/-- The spec's reading of one `(key, expected)` schema entry being satisfied
by a document map: the key is present, and the value matches the entry —
a type-name string via the type predicate, a nested schema object via an
object value that recursively validates, anything else failing.  Stated from
the spec's words, to be compared with `validate_against_structure`. -/
def specEntryOk (doc : List (String × Json)) (kv : String × Json) : Prop :=
  ∃ v, jlookup doc kv.1 = some v ∧
    (match kv.2 with
     | .str sType => type_matches sType v = true
     | .obj subSchema =>
       ∃ subDoc, v = .obj subDoc ∧ validate_against_structure subDoc subSchema = true
     | _ => False)

theorem validate_iff (doc schema : List (String × Json)) :
    validate_against_structure doc schema = true ↔ ∀ kv ∈ schema, specEntryOk doc kv := by
  induction schema with
  | nil => simp [validate_against_structure]
  | cons head rest ih =>
    obtain ⟨key, expected⟩ := head
    cases h : jlookup doc key with
    | none =>
      simp only [validate_against_structure, h]
      constructor
      · intro hfalse; cases hfalse
      · intro hall
        obtain ⟨v, hv, -⟩ := hall (key, expected) (List.mem_cons_self _ _)
        simp only at hv
        rw [h] at hv
        cases hv
    | some actual =>
      have hhead : ∀ P : Prop,
          (specEntryOk doc (key, expected) ↔ P) →
          ((∀ kv ∈ (key, expected) :: rest, specEntryOk doc kv) ↔
            (P ∧ ∀ kv ∈ rest, specEntryOk doc kv)) := by
        intro P hP
        constructor
        · intro hall
          exact ⟨hP.1 (hall _ (List.mem_cons_self _ _)),
                 fun kv hkv => hall kv (List.mem_cons_of_mem _ hkv)⟩
        · rintro ⟨hp, hrest⟩ kv hkv
          rcases List.mem_cons.1 hkv with rfl | hkv
          · exact hP.2 hp
          · exact hrest kv hkv
      cases expected with
      | str sType =>
        rw [hhead (type_matches sType actual = true)
              (by simp [specEntryOk, h])]
        simp only [validate_against_structure, h, Bool.and_eq_true, ih]
      | obj subSchema =>
        cases actual with
        | obj subDoc =>
          rw [hhead (validate_against_structure subDoc subSchema = true)
                (by simp [specEntryOk, h])]
          simp only [validate_against_structure, h, Bool.and_eq_true, ih]
        | null =>
          simp only [validate_against_structure, h]
          constructor
          · intro hfalse; cases hfalse
          · intro hall
            obtain ⟨v, hv, hm⟩ := hall (key, .obj subSchema) (List.mem_cons_self _ _)
            simp only at hv
            rw [h] at hv
            obtain rfl : Json.null = v := Option.some_injective _ hv
            obtain ⟨subDoc, hsd, -⟩ := hm
            cases hsd
        | bool b =>
          simp only [validate_against_structure, h]
          constructor
          · intro hfalse; cases hfalse
          · intro hall
            obtain ⟨v, hv, hm⟩ := hall (key, .obj subSchema) (List.mem_cons_self _ _)
            simp only at hv
            rw [h] at hv
            obtain rfl : Json.bool b = v := Option.some_injective _ hv
            obtain ⟨subDoc, hsd, -⟩ := hm
            cases hsd
        | num n =>
          simp only [validate_against_structure, h]
          constructor
          · intro hfalse; cases hfalse
          · intro hall
            obtain ⟨v, hv, hm⟩ := hall (key, .obj subSchema) (List.mem_cons_self _ _)
            simp only at hv
            rw [h] at hv
            obtain rfl : Json.num n = v := Option.some_injective _ hv
            obtain ⟨subDoc, hsd, -⟩ := hm
            cases hsd
        | str s =>
          simp only [validate_against_structure, h]
          constructor
          · intro hfalse; cases hfalse
          · intro hall
            obtain ⟨v, hv, hm⟩ := hall (key, .obj subSchema) (List.mem_cons_self _ _)
            simp only at hv
            rw [h] at hv
            obtain rfl : Json.str s = v := Option.some_injective _ hv
            obtain ⟨subDoc, hsd, -⟩ := hm
            cases hsd
        | arr xs =>
          simp only [validate_against_structure, h]
          constructor
          · intro hfalse; cases hfalse
          · intro hall
            obtain ⟨v, hv, hm⟩ := hall (key, .obj subSchema) (List.mem_cons_self _ _)
            simp only at hv
            rw [h] at hv
            obtain rfl : Json.arr xs = v := Option.some_injective _ hv
            obtain ⟨subDoc, hsd, -⟩ := hm
            cases hsd
      | null =>
        simp only [validate_against_structure, h]
        constructor
        · intro hfalse; cases hfalse
        · intro hall
          obtain ⟨v, hv, hm⟩ := hall (key, .null) (List.mem_cons_self _ _)
          exact hm.elim
      | bool b =>
        simp only [validate_against_structure, h]
        constructor
        · intro hfalse; cases hfalse
        · intro hall
          obtain ⟨v, hv, hm⟩ := hall (key, .bool b) (List.mem_cons_self _ _)
          exact hm.elim
      | num n =>
        simp only [validate_against_structure, h]
        constructor
        · intro hfalse; cases hfalse
        · intro hall
          obtain ⟨v, hv, hm⟩ := hall (key, .num n) (List.mem_cons_self _ _)
          exact hm.elim
      | arr xs =>
        simp only [validate_against_structure, h]
        constructor
        · intro hfalse; cases hfalse
        · intro hall
          obtain ⟨v, hv, hm⟩ := hall (key, .arr xs) (List.mem_cons_self _ _)
          exact hm.elim

theorem jlookup_cons_ne (doc : List (String × Json)) (k key : String) (v : Json)
    (hne : key ≠ k) : jlookup ((k, v) :: doc) key = jlookup doc key := by
  simp only [jlookup, if_neg (show ¬ k = key from fun h => hne h.symm)]

/-- C1: `validate_against_structure(D, S)` returns true iff every key of the
schema `S` is present in the document `D` with a value matching the schema
entry (type-name strings via the case-insensitive type predicate with
unrecognised names always failing, object entries via an object value that
recursively satisfies them, any other entry shape failing); the empty schema
accepts every document map, and adding a key not mentioned by the schema
never changes the verdict. -/
theorem c1_validate_characterisation (doc schema : List (String × Json)) :
    (validate_against_structure doc schema = true ↔ ∀ kv ∈ schema, specEntryOk doc kv) ∧
    validate_against_structure doc [] = true ∧
    (∀ k v, (∀ kv ∈ schema, kv.1 ≠ k) →
      (validate_against_structure ((k, v) :: doc) schema = true ↔
        validate_against_structure doc schema = true)) := by
  refine ⟨validate_iff doc schema, by simp [validate_against_structure], ?_⟩
  intro k v hk
  rw [validate_iff, validate_iff]
  constructor
  · intro hall kv hkv
    obtain ⟨w, hw, hm⟩ := hall kv hkv
    rw [jlookup_cons_ne doc k kv.1 v (hk kv hkv)] at hw
    exact ⟨w, hw, hm⟩
  · intro hall kv hkv
    obtain ⟨w, hw, hm⟩ := hall kv hkv
    refine ⟨w, ?_, hm⟩
    rw [jlookup_cons_ne doc k kv.1 v (hk kv hkv)]
    exact hw

/-- Witness for C1 at a concrete document and schema, exercising the
validating direction and the extra-key conjunct. -/
theorem c1_witness :
    validate_against_structure [("a", .num 3)] [("a", .str "Number")] = true ∧
    validate_against_structure [("extra", .bool true), ("a", .num 3)]
      [("a", .str "Number")] = true := by
  have h := c1_validate_characterisation [("a", .num 3)] [("a", .str "Number")]
  have hval : validate_against_structure [("a", .num 3)] [("a", .str "Number")] = true := by
    apply h.1.2
    intro kv hkv
    simp only [List.mem_singleton] at hkv
    subst hkv
    simp only [specEntryOk]
    exact ⟨.num 3, by simp [jlookup], by decide⟩
  exact ⟨hval, (h.2.2 "extra" (.bool true) (by decide)).2 hval⟩

/-- C10: a document whose payload is not a JSON object satisfies
`matches_filter` for every filter, including non-empty equality filters, so
`get_documents` returns its (projected) payload no matter what the filter
asks. -/
theorem c10_nonobject_payload_matches_every_filter
    (db : Database) (name : String) (filter proj : Json) (c : Collection) (d : Document)
    (hc : db.get_collection name = some c) (hd : d ∈ c.documents)
    (hobj : d.data.isObj = false) :
    matches_filter d.data filter = true ∧
    get_documents db name filter proj =
      .ok ((c.documents.filter (fun x => matches_filter x.data filter)).map
        (fun x => apply_projection x.data proj)) ∧
    apply_projection d.data proj ∈
      (c.documents.filter (fun x => matches_filter x.data filter)).map
        (fun x => apply_projection x.data proj) := by
  have hmatch : matches_filter d.data filter = true := by
    cases hdd : d.data with
    | obj fs => rw [hdd] at hobj; simp [Json.isObj] at hobj
    | null => cases filter <;> rfl
    | bool b => cases filter <;> rfl
    | num n => cases filter <;> rfl
    | str s => cases filter <;> rfl
    | arr xs => cases filter <;> rfl
  refine ⟨hmatch, ?_, ?_⟩
  · simp [get_documents, hc]
  · exact List.mem_map_of_mem _ (List.mem_filter.2 ⟨hd, hmatch⟩)

/-- Witness for C10: a collection holding the bare number `42` as a document
payload; a find filtered on `a == 1` still returns it. -/
theorem c10_witness :
    matches_filter (.num 42) (.obj [("a", .num 1)]) = true ∧
    get_documents (Database.mk [Collection.mk "c" [Document.mk "d2" (.num 42) 0 0] 0 (.obj [])])
      "c" (.obj [("a", .num 1)]) (.obj []) =
      .ok (((Collection.mk "c" [Document.mk "d2" (.num 42) 0 0] 0 (.obj [])).documents.filter
        (fun x => matches_filter x.data (.obj [("a", .num 1)]))).map
          (fun x => apply_projection x.data (.obj []))) ∧
    apply_projection (Json.num 42) (.obj []) ∈
      (((Collection.mk "c" [Document.mk "d2" (.num 42) 0 0] 0 (.obj [])).documents.filter
        (fun x => matches_filter x.data (.obj [("a", .num 1)]))).map
          (fun x => apply_projection x.data (.obj []))) := by
  have h := c10_nonobject_payload_matches_every_filter
    (Database.mk [Collection.mk "c" [Document.mk "d2" (.num 42) 0 0] 0 (.obj [])])
    "c" (.obj [("a", .num 1)]) (.obj [])
    (Collection.mk "c" [Document.mk "d2" (.num 42) 0 0] 0 (.obj []))
    (Document.mk "d2" (.num 42) 0 0)
    (by simp [Database.get_collection, List.find?])
    (by simp)
    (by rfl)
  exact h

/-- The catalog-level mutations of the claim: `Database::add_collection` and
`Database::remove_collection`. -/
inductive CatalogOp where
  | add (name : String) («structure» : Json) (t : Nat)
  | remove (name : String)

/-- One catalog mutation as the Rust caller sees the state afterwards: on an
error return the `&mut self` catalog is untouched. -/
def stepCatalog (db : Database) : CatalogOp → Database
  | .add name s t =>
    match db.add_collection name s t with
    | .ok db' => db'
    | .error _ => db
  | .remove name =>
    match db.remove_collection name with
    | .ok db' => db'
    | .error _ => db

/-- A catalog reachable from `Database::new` by add/remove operations. -/
def runCatalog (ops : List CatalogOp) : Database :=
  ops.foldl stepCatalog Database.new

/-- No two collections of the catalog share a name. -/
def uniqueNames (db : Database) : Prop :=
  (db.collections.map (fun c => c.name)).Nodup


theorem add_collection_ok_inv (db db' : Database) (name : String) (s : Json) (t : Nat)
    (h : db.add_collection name s t = .ok db') :
    db.collections.any (fun c => c.name = name) = false ∧
    db' = { db with collections := db.collections ++ [Collection.new name s t] } := by
  unfold Database.add_collection at h
  split_ifs at h with h1 h2 h3
  exact ⟨by simpa using h1, (Except.ok.inj h).symm⟩

theorem stepCatalog_preserves_uniqueNames (db : Database) (op : CatalogOp)
    (hdb : uniqueNames db) : uniqueNames (stepCatalog db op) := by
  cases op with
  | add name s t =>
    simp only [stepCatalog]
    cases hadd : db.add_collection name s t with
    | error e => exact hdb
    | ok db' =>
      obtain ⟨hany, rfl⟩ := add_collection_ok_inv db db' name s t hadd
      unfold uniqueNames at hdb ⊢
      simp only [List.map_append, List.map_cons, List.map_nil]
      rw [List.nodup_append]
      refine ⟨hdb, List.nodup_singleton _, ?_⟩
      intro a ha ha'
      simp only [Collection.new, List.mem_singleton] at ha'
      rw [ha'] at ha
      obtain ⟨c, hc, hcname⟩ := List.mem_map.1 ha
      have htrue : db.collections.any (fun c => c.name = name) = true :=
        List.any_eq_true.2 ⟨c, hc, by simp [hcname]⟩
      rw [hany] at htrue
      cases htrue
  | remove name =>
    simp only [stepCatalog]
    cases hrem : db.remove_collection name with
    | error e => exact hdb
    | ok db' =>
      have hsub : db'.collections.Sublist db.collections := by
        unfold Database.remove_collection at hrem
        cases hidx : db.collections.findIdx? (fun c => c.name = name) with
        | none => rw [hidx] at hrem; exact absurd hrem (by simp)
        | some i =>
          rw [hidx] at hrem
          obtain rfl := (Except.ok.inj hrem).symm
          exact db.collections.eraseIdx_sublist i
      exact hdb.sublist (hsub.map _)

/-- C8: collection-name uniqueness is an invariant of the catalog: every
catalog reachable from the empty one by add/remove operations has pairwise
distinct collection names, and once `add x s1` has succeeded, a second
`add x s2` fails with `CollectionAlreadyExists x` for any schemas and
timestamps, leaving the catalog unchanged. -/
theorem c8_collection_names_unique :
    (∀ ops : List CatalogOp, uniqueNames (runCatalog ops)) ∧
    (∀ (db db' : Database) (x : String) (s1 s2 : Json) (t1 t2 : Nat),
      db.add_collection x s1 t1 = .ok db' →
      db'.add_collection x s2 t2 = .error (.CollectionAlreadyExists x) ∧
      stepCatalog db' (.add x s2 t2) = db') := by
  constructor
  · intro ops
    have hrun : ∀ (l : List CatalogOp) (db : Database), uniqueNames db →
        uniqueNames (l.foldl stepCatalog db) := by
      intro l
      induction l with
      | nil => intro db hdb; exact hdb
      | cons op rest ih =>
        intro db hdb
        exact ih _ (stepCatalog_preserves_uniqueNames db op hdb)
    exact hrun ops Database.new (by simp [uniqueNames, Database.new])
  · intro db db' x s1 s2 t1 t2 h
    obtain ⟨-, rfl⟩ := add_collection_ok_inv db db' x s1 t1 h
    have hany : ((db.collections ++ [Collection.new x s1 t1]).any
        (fun c => c.name = x)) = true := by
      rw [List.any_append]
      simp [Collection.new]
    have herr : ({ db with collections := db.collections ++ [Collection.new x s1 t1] }
          : Database).add_collection x s2 t2 = .error (.CollectionAlreadyExists x) := by
      unfold Database.add_collection
      simp only [hany]
      rfl
    refine ⟨herr, ?_⟩
    simp only [stepCatalog, herr]

/-- Witness for C8: two concrete adds of the name `"x"`; the first succeeds,
the second fails with `CollectionAlreadyExists` and leaves the catalog as it
was. -/
theorem c8_witness :
    (Database.new.add_collection "x" (.obj []) 1 =
      .ok (Database.mk [Collection.new "x" (.obj []) 1])) ∧
    ((Database.mk [Collection.new "x" (.obj []) 1]).add_collection "x"
      (.obj [("a", .str "number")]) 2 = .error (.CollectionAlreadyExists "x")) ∧
    stepCatalog (Database.mk [Collection.new "x" (.obj []) 1])
      (.add "x" (.obj [("a", .str "number")]) 2) =
      Database.mk [Collection.new "x" (.obj []) 1] := by
  have h0 : Database.new.add_collection "x" (.obj []) 1 =
      .ok (Database.mk [Collection.new "x" (.obj []) 1]) := by
    unfold Database.add_collection Database.new
    simp [Json.isObj]
  have h := c8_collection_names_unique.2 Database.new
    (Database.mk [Collection.new "x" (.obj []) 1]) "x" (.obj [])
    (.obj [("a", .str "number")]) 1 2 h0
  exact ⟨h0, h.1, h.2⟩

/-- The timestamp invariant of one document, bounded by a clock reading. -/
def docTimesOk (T : Nat) (d : Document) : Prop :=
  d.created_at ≤ d.updated_at ∧ d.updated_at ≤ T

/-- The timestamp invariant of a whole collection. -/
def collTimesOk (T : Nat) (c : Collection) : Prop :=
  ∀ d ∈ c.documents, docTimesOk T d

theorem add_document_ok_inv (c : Collection) (data : Json) (id : String) (t : Nat)
    (c' : Collection) (h : c.add_document data id t = .ok c') :
    c' = { c with documents := c.documents ++ [Document.new id data t] } := by
  unfold Collection.add_document at h
  split at h
  · split at h
    · split_ifs at h
      exact (Except.ok.inj h).symm
    · exact Except.noConfusion h
  · exact Except.noConfusion h

theorem update_documents_ok_inv (c : Collection) (f : String) (v nd : Json) (t : Nat)
    (c' : Collection) (h : c.update_documents f v nd t = .ok c') :
    c' = { c with documents := c.documents.map (fun d =>
      if matchesField f v d then { d with data := nd, updated_at := t } else d) } := by
  unfold Collection.update_documents at h
  split at h
  · split_ifs at h
    exact (Except.ok.inj h).symm
  · exact Except.noConfusion h

theorem delete_documents_ok_inv (c : Collection) (f : String) (v : Json)
    (c' : Collection) (h : c.delete_documents f v = .ok c') :
    c' = { c with documents := c.documents.filter (fun d => !matchesField f v d) } := by
  unfold Collection.delete_documents at h
  split_ifs at h
  exact (Except.ok.inj h).symm

theorem patchDocs_ok_forall₂ (f : String) (v : Json) (tf : String) (val : Json) (t : Nat) :
    ∀ (docs docs' : List Document), patchDocs f v tf val t docs = .ok docs' →
    List.Forall₂ (fun d d' =>
      d'.created_at = d.created_at ∧ d'.id = d.id ∧
      (matchesField f v d = true → d'.updated_at = t) ∧
      (matchesField f v d = false → d' = d)) docs docs'
  | [], docs', h => by
      unfold patchDocs at h
      obtain rfl := Except.ok.inj h
      exact List.Forall₂.nil
  | d :: rest, docs', h => by
      unfold patchDocs at h
      cases hm : matchesField f v d with
      | true =>
        rw [hm] at h
        simp only [if_true] at h
        cases hdata : d.data with
        | obj m =>
          rw [hdata] at h
          cases hrest : patchDocs f v tf val t rest with
          | error e => rw [hrest] at h; exact Except.noConfusion h
          | ok rest' =>
            rw [hrest] at h
            obtain rfl := Except.ok.inj h
            exact List.Forall₂.cons
              ⟨rfl, rfl, fun _ => rfl, fun hf => absurd hm (by simp [hf])⟩
              (patchDocs_ok_forall₂ f v tf val t rest rest' hrest)
        | null => rw [hdata] at h; exact Except.noConfusion h
        | bool b => rw [hdata] at h; exact Except.noConfusion h
        | num n => rw [hdata] at h; exact Except.noConfusion h
        | str s => rw [hdata] at h; exact Except.noConfusion h
        | arr xs => rw [hdata] at h; exact Except.noConfusion h
      | false =>
        rw [hm] at h
        rw [if_neg Bool.false_ne_true] at h
        cases hrest : patchDocs f v tf val t rest with
        | error e => rw [hrest] at h; exact Except.noConfusion h
        | ok rest' =>
          rw [hrest] at h
          obtain rfl := Except.ok.inj h
          exact List.Forall₂.cons
            ⟨rfl, rfl, fun ht' => absurd hm (by simp [ht']), fun _ => rfl⟩
            (patchDocs_ok_forall₂ f v tf val t rest rest' hrest)

theorem forall₂_right_mem {R : Document → Document → Prop} :
    ∀ {l l' : List Document}, List.Forall₂ R l l' → ∀ d' ∈ l', ∃ d ∈ l, R d d' := by
  intro l l' h
  induction h with
  | nil => intro d' hd'; cases hd'
  | @cons a b l₁ l₂ hR hrest ih =>
    intro d' hd'
    rcases List.mem_cons.1 hd' with rfl | hd'
    · exact ⟨a, List.mem_cons_self _ _, hR⟩
    · obtain ⟨d, hd, hRd⟩ := ih d' hd'
      exact ⟨d, List.mem_cons_of_mem _ hd, hRd⟩

/-- C9: document timestamps.  At creation `created_at` and `updated_at` are
the same clock reading; under a monotone clock (`T ≤ t`) every mutating
collection operation preserves `created_at ≤ updated_at`, never changes the
`created_at` (or `id`) of a surviving document, and refreshes `updated_at` of
every document whose data it mutates. -/
theorem c9_timestamp_invariant (c : Collection) (T t : Nat)
    (hc : collTimesOk T c) (ht : T ≤ t) :
    (∀ id data, (Document.new id data t).created_at = t ∧
      (Document.new id data t).updated_at = t) ∧
    (∀ data id c', c.add_document data id t = .ok c' →
      collTimesOk t c' ∧ c'.documents = c.documents ++ [Document.new id data t]) ∧
    (∀ f v nd c', c.update_documents f v nd t = .ok c' →
      collTimesOk t c' ∧
      List.Forall₂ (fun d d' =>
        d'.created_at = d.created_at ∧ d'.id = d.id ∧
        (matchesField f v d = true → d'.updated_at = t ∧ d'.data = nd) ∧
        (matchesField f v d = false → d' = d)) c.documents c'.documents) ∧
    (∀ f v tf val c', c.update_documents_field f v tf val t = .ok c' →
      collTimesOk t c' ∧
      List.Forall₂ (fun d d' =>
        d'.created_at = d.created_at ∧ d'.id = d.id ∧
        (matchesField f v d = true → d'.updated_at = t) ∧
        (matchesField f v d = false → d' = d)) c.documents c'.documents) ∧
    (∀ f v c', c.delete_documents f v = .ok c' →
      collTimesOk t c' ∧ ∀ d ∈ c'.documents, d ∈ c.documents) := by
  refine ⟨fun id data => ⟨rfl, rfl⟩, ?_, ?_, ?_, ?_⟩
  · intro data id c' h
    obtain rfl := add_document_ok_inv c data id t c' h
    refine ⟨?_, rfl⟩
    intro d hd
    simp only [List.mem_append, List.mem_singleton] at hd
    rcases hd with hd | rfl
    · obtain ⟨h1, h2⟩ := hc d hd
      exact ⟨h1, le_trans h2 ht⟩
    · exact ⟨le_refl t, le_refl t⟩
  · intro f v nd c' h
    obtain rfl := update_documents_ok_inv c f v nd t c' h
    constructor
    · intro d' hd'
      simp only [List.mem_map] at hd'
      obtain ⟨d, hd, rfl⟩ := hd'
      obtain ⟨h1, h2⟩ := hc d hd
      by_cases hm : matchesField f v d = true
      · simp only [hm, if_true]
        exact ⟨le_trans h1 (le_trans h2 ht), le_refl t⟩
      · simp only [hm, if_false]
        exact ⟨h1, le_trans h2 ht⟩
    · rw [List.forall₂_map_right_iff]
      rw [List.forall₂_same]
      intro d hd
      by_cases hm : matchesField f v d = true
      · rw [if_pos hm]
        exact ⟨rfl, rfl, fun _ => ⟨rfl, rfl⟩, fun hf => absurd hm (by simp [hf])⟩
      · rw [if_neg hm]
        exact ⟨rfl, rfl, fun ht' => absurd ht' hm, fun _ => rfl⟩
  · intro f v tf val c' h
    unfold Collection.update_documents_field at h
    split_ifs at h
    cases hpatch : patchDocs f v tf val t c.documents with
    | error e => rw [hpatch] at h; exact Except.noConfusion h
    | ok docs =>
      rw [hpatch] at h
      obtain rfl := Except.ok.inj h
      have hF := patchDocs_ok_forall₂ f v tf val t c.documents docs hpatch
      constructor
      · intro d' hd'
        obtain ⟨d, hd, hcr, hid, hmt, hmf⟩ := forall₂_right_mem hF d' hd'
        obtain ⟨h1, h2⟩ := hc d hd
        cases hm : matchesField f v d with
        | true =>
          refine ⟨?_, ?_⟩
          · rw [hcr, hmt hm]
            exact le_trans h1 (le_trans h2 ht)
          · rw [hmt hm]
        | false =>
          rw [hmf hm]
          exact ⟨h1, le_trans h2 ht⟩
      · exact hF
  · intro f v c' h
    obtain rfl := delete_documents_ok_inv c f v c' h
    constructor
    · intro d hd
      obtain ⟨hmem, -⟩ := List.mem_filter.1 hd
      obtain ⟨h1, h2⟩ := hc d hmem
      exact ⟨h1, le_trans h2 ht⟩
    · intro d hd
      exact (List.mem_filter.1 hd).1

/-- Witness for C9: a concrete bulk replace at clock reading 5 on a collection
whose timestamps are bounded by 3 keeps the timestamp invariant. -/
theorem c9_witness :
    collTimesOk 3 (Collection.mk "users" [Document.mk "i" (.obj [("a", .num 1)]) 3 2] 0 (.obj [])) ∧
    3 ≤ 5 ∧
    collTimesOk 5 (Collection.mk "users" [Document.mk "i" (.obj [("a", .num 2)]) 5 2] 0 (.obj [])) := by
  have hc : collTimesOk 3
      (Collection.mk "users" [Document.mk "i" (.obj [("a", .num 1)]) 3 2] 0 (.obj [])) := by
    intro d hd
    simp only [List.mem_singleton] at hd
    subst hd
    exact ⟨by norm_num, le_refl 3⟩
  have hupd : (Collection.mk "users" [Document.mk "i" (.obj [("a", .num 1)]) 3 2] 0
        (.obj [])).update_documents "a" (.num 1) (.obj [("a", .num 2)]) 5 =
      .ok (Collection.mk "users" [Document.mk "i" (.obj [("a", .num 2)]) 5 2] 0 (.obj [])) := by
    simp [Collection.update_documents, matchesField, get_nested_value, get_nested_value.walk,
      splitChars, jlookup, validate_against_structure]
  exact ⟨hc, by norm_num,
    ((c9_timestamp_invariant _ 3 5 hc (by norm_num)).2.2.1 "a" (.num 1)
      (.obj [("a", .num 2)]) _ hupd).1⟩

theorem splitChars_no_sep (sep : Char) :
    ∀ (l acc : List Char), sep ∉ l →
      splitChars sep l acc = [String.mk (acc.reverse ++ l)] := by
  intro l
  induction l with
  | nil => intro acc h; simp [splitChars]
  | cons c rest ih =>
    intro acc h
    have hc : ¬ c = sep := fun hh => h (hh ▸ List.mem_cons_self c rest)
    rw [splitChars, if_neg hc, ih (c :: acc) (fun hm => h (List.mem_cons_of_mem _ hm))]
    simp

theorem get_nested_value_no_dot (m : List (String × Json)) (f : String)
    (h : '.' ∉ f.data) : get_nested_value (.obj m) f = jlookup m f := by
  unfold get_nested_value
  rw [splitChars_no_sep '.' f.data [] h]
  show get_nested_value.walk (.obj m) [String.mk f.data] = jlookup m f
  cases hl : jlookup m f with
  | some w => simp [get_nested_value.walk, hl]
  | none => simp [get_nested_value.walk, hl]

theorem matches_filter_single (m : List (String × Json)) (f : String) (v : Json) :
    matches_filter (.obj m) (.obj [(f, v)]) = true ↔ jlookup m f = some v := by
  cases hl : jlookup m f with
  | some w => simp [matches_filter, hl]
  | none => simp [matches_filter, hl]

/-- C4 (amended): when `delete_documents` succeeds, no document whose
dot-path value at the field equals the match value remains; a subsequent find
with the same single-key equality filter returns the empty set provided the
field name has no dot and every remaining payload is an object (the find
helper compares filter keys literally at top level and treats non-object
payloads as matching every filter); when no document matches, the call fails
with `DocumentNotFound` and the retained document list is exactly the
original one. -/
theorem c4_delete_find_contract (c : Collection) (f : String) (v : Json) :
    (∀ c', c.delete_documents f v = .ok c' →
      (∀ d ∈ c'.documents, matchesField f v d = false) ∧
      ('.' ∉ f.data → (∀ d ∈ c'.documents, d.data.isObj = true) →
        ∀ (db : Database) (name : String) (proj : Json),
          db.get_collection name = some c' →
          get_documents db name (.obj [(f, v)]) proj = .ok [])) ∧
    ((∀ d ∈ c.documents, matchesField f v d = false) →
      c.delete_documents f v = .error (.DocumentNotFound (noDocMsg f v)) ∧
      c.documents.filter (fun d => !matchesField f v d) = c.documents) := by
  constructor
  · intro c' h
    obtain rfl := delete_documents_ok_inv c f v c' h
    have hrem : ∀ d ∈ c.documents.filter (fun d => !matchesField f v d),
        matchesField f v d = false := by
      intro d hd
      have := (List.mem_filter.1 hd).2
      simpa using this
    refine ⟨hrem, ?_⟩
    intro hdot hobj db name proj hget
    simp only [get_documents, hget]
    congr 1
    have hempty : (List.filter (fun d => matches_filter d.data (.obj [(f, v)]))
        (List.filter (fun d => !matchesField f v d) c.documents)) = [] := by
      rw [List.filter_eq_nil_iff]
      intro d hd
      obtain ⟨m, hm⟩ : ∃ m, d.data = .obj m := by
        have := hobj d hd
        cases hdd : d.data <;> rw [hdd] at this <;> simp [Json.isObj] at this
        exact ⟨_, rfl⟩
      have hmatch : matchesField f v d = false := hrem d hd
      have hnv : jlookup m f ≠ some v := by
        intro hcontra
        have : get_nested_value d.data f = some v := by
          rw [hm, get_nested_value_no_dot m f hdot, hcontra]
        simp [matchesField, this] at hmatch
      rw [hm]
      simp only [Bool.not_eq_true]
      rw [← Bool.not_eq_true]
      intro habs
      exact hnv ((matches_filter_single m f v).1 habs)
    rw [hempty]
    simp
  · intro hall
    have hfilter : c.documents.filter (fun d => !matchesField f v d) = c.documents := by
      rw [List.filter_eq_self]
      intro d hd
      simp [hall d hd]
    constructor
    · unfold Collection.delete_documents
      rw [hfilter, if_pos rfl]
    · exact hfilter

/-- Counterexample for C4 as stated: deleting `a == 1` succeeds (it removes
the one matching document), yet a subsequent find with the same filter
returns the surviving document whose payload is the bare number `42`, not the
empty set. -/
theorem c4_counterexample :
    (Collection.mk "c" [Document.mk "d1" (.obj [("a", .num 1)]) 0 0,
        Document.mk "d2" (.num 42) 0 0] 0 (.obj [])).delete_documents "a" (.num 1) =
      .ok (Collection.mk "c" [Document.mk "d2" (.num 42) 0 0] 0 (.obj [])) ∧
    get_documents (Database.mk [Collection.mk "c" [Document.mk "d2" (.num 42) 0 0] 0 (.obj [])])
      "c" (.obj [("a", .num 1)]) (.obj []) = .ok [.num 42] := by
  constructor
  · simp [Collection.delete_documents, matchesField, get_nested_value, get_nested_value.walk,
      splitChars, jlookup]
  · simp [get_documents, Database.get_collection, matches_filter, apply_projection, List.find?]

/-- Witness for C4 (amended): deleting `a == 1` from a collection whose other
document is an object leaves the collection with no `a == 1` match, and the
find with that filter returns the empty set. -/
theorem c4_witness :
    (∀ d ∈ (Collection.mk "c" [Document.mk "d3" (.obj [("b", .num 2)]) 0 0] 0
        (.obj [])).documents, matchesField "a" (.num 1) d = false) ∧
    get_documents (Database.mk [Collection.mk "c" [Document.mk "d3" (.obj [("b", .num 2)]) 0 0]
        0 (.obj [])]) "c" (.obj [("a", .num 1)]) (.obj []) = .ok [] := by
  have hdel : (Collection.mk "c" [Document.mk "d1" (.obj [("a", .num 1)]) 0 0,
        Document.mk "d3" (.obj [("b", .num 2)]) 0 0] 0 (.obj [])).delete_documents
        "a" (.num 1) =
      .ok (Collection.mk "c" [Document.mk "d3" (.obj [("b", .num 2)]) 0 0] 0 (.obj [])) := by
    simp [Collection.delete_documents, matchesField, get_nested_value, get_nested_value.walk,
      splitChars, jlookup]
  have h := (c4_delete_find_contract
    (Collection.mk "c" [Document.mk "d1" (.obj [("a", .num 1)]) 0 0,
      Document.mk "d3" (.obj [("b", .num 2)]) 0 0] 0 (.obj [])) "a" (.num 1)).1
    (Collection.mk "c" [Document.mk "d3" (.obj [("b", .num 2)]) 0 0] 0 (.obj [])) hdel
  refine ⟨h.1, ?_⟩
  apply h.2 (by decide)
  · intro d hd
    simp only [List.mem_singleton] at hd
    subst hd
    rfl
  · simp [Database.get_collection, List.find?]

/-- C7 (amended): payload checks precede matching in `update_documents`: a
non-object payload fails with `DocumentInvalid` even when nothing matches, as
does an object payload failing schema validation; when the payload is an
object that passes validation (or the schema is not an object) and no
document's dot-path value at the field equals the match value, the call fails
with `DocumentNotFound`; on success it replaces the full data and refreshes
`updated_at` of every matching document, leaving the others untouched. -/
theorem c7_update_documents_contract (c : Collection) (f : String) (v nd : Json) (t : Nat) :
    (nd.isObj = false →
      c.update_documents f v nd t = .error (.DocumentInvalid "New data must be a JSON object")) ∧
    (∀ m expected, nd = .obj m → c.«structure» = .obj expected →
      validate_against_structure m expected = false →
      c.update_documents f v nd t =
        .error (.DocumentInvalid "New data does not match the collection's structure")) ∧
    (∀ m, nd = .obj m →
      (∀ expected, c.«structure» = .obj expected →
        validate_against_structure m expected = true) →
      (∀ d ∈ c.documents, matchesField f v d = false) →
      c.update_documents f v nd t = .error (.DocumentNotFound (noDocMsg f v))) ∧
    (∀ c', c.update_documents f v nd t = .ok c' →
      c'.documents = c.documents.map (fun d =>
        if matchesField f v d then { d with data := nd, updated_at := t } else d)) := by
  refine ⟨?_, ?_, ?_, ?_⟩
  · intro hno
    cases nd with
    | obj m => simp [Json.isObj] at hno
    | null => rfl
    | bool b => rfl
    | num n => rfl
    | str s => rfl
    | arr xs => rfl
  · intro m expected hnd hs hval
    subst hnd
    unfold Collection.update_documents
    rw [hs]
    simp [hval]
  · intro m hnd hvalid hall
    subst hnd
    have hcond : (match c.«structure» with
        | .obj expected_structure => validate_against_structure m expected_structure
        | _ => true) = true := by
      cases hs : c.«structure» with
      | obj e => exact hvalid e hs
      | null => rfl
      | bool b => rfl
      | num n => rfl
      | str s => rfl
      | arr xs => rfl
    have hallb : c.documents.all (fun d => !matchesField f v d) = true :=
      List.all_eq_true.2 (fun d hd => by simp [hall d hd])
    unfold Collection.update_documents
    simp [hcond, hallb]
  · intro c' h
    obtain rfl := update_documents_ok_inv c f v nd t c' h
    rfl

/-- Counterexample for C7 as stated: on an empty collection (so the match set
is empty) a non-object replacement payload makes `update_documents` fail with
`DocumentInvalid`, not with `DocumentNotFound`. -/
theorem c7_counterexample :
    (Collection.mk "c" [] 0 (.obj [])).update_documents "a" (.num 1) (.num 42) 7 =
      .error (.DocumentInvalid "New data must be a JSON object") := rfl

/-- Witness for C7 (amended): the empty-match `DocumentNotFound` case with a
valid object payload, and the full-replace-with-refresh success case. -/
theorem c7_witness :
    ((Collection.mk "c" [] 0 (.obj [])).update_documents "a" (.num 1) (.obj []) 7 =
      .error (.DocumentNotFound (noDocMsg "a" (.num 1)))) ∧
    (Collection.mk "users" [Document.mk "i" (.obj [("a", .num 2)]) 5 2] 0 (.obj [])).documents =
      (Collection.mk "users" [Document.mk "i" (.obj [("a", .num 1)]) 3 2] 0
        (.obj [])).documents.map (fun d =>
          if matchesField "a" (.num 1) d then
            { d with data := .obj [("a", .num 2)], updated_at := 5 }
          else d) := by
  constructor
  · apply (c7_update_documents_contract (Collection.mk "c" [] 0 (.obj [])) "a" (.num 1)
      (.obj []) 7).2.2.1 [] rfl
    · intro expected he
      injection he with h1
      subst h1
      simp [validate_against_structure]
    · intro d hd
      cases hd
  · have hupd : (Collection.mk "users" [Document.mk "i" (.obj [("a", .num 1)]) 3 2] 0
        (.obj [])).update_documents "a" (.num 1) (.obj [("a", .num 2)]) 5 =
      .ok (Collection.mk "users" [Document.mk "i" (.obj [("a", .num 2)]) 5 2] 0 (.obj [])) := by
      simp [Collection.update_documents, matchesField, get_nested_value, get_nested_value.walk,
        splitChars, jlookup, validate_against_structure]
    exact (c7_update_documents_contract _ "a" (.num 1) (.obj [("a", .num 2)]) 5).2.2.2 _ hupd

/-- C5: evaluation of `File::decrypt` at a blob whose base64 payload decodes
to only 3 bytes: the `split_at(12)` nonce split panics instead of returning a
typed error, for any AEAD core and key. -/
theorem c5_decrypt_short_blob_panics :
    File.decrypt (fun _ _ _ => none) "AAAA" (List.replicate 32 0) = .panics "mid > len" := by
  decide

/-- C6: evaluation of `File::load_or_generate_key` at key files whose hex
content decodes to fewer and to more than 32 bytes: one byte panics at
`&bytes[..32]`, and 33 bytes are silently truncated to the first 32 instead
of raising a typed error. -/
theorem c6_key_length_divergence :
    File.load_or_generate_key (some (.ok "ab")) [] (.ok ()) =
      .panics "range end index 32 out of range for slice" ∧
    File.load_or_generate_key (some (.ok (String.mk (List.replicate 66 'a')))) [] (.ok ()) =
      .ok (List.replicate 32 170) := by
  constructor
  · decide
  · decide

/-- Counterexample for C3 as stated: with no file at the database path but a
key file holding invalid hex, `load_or_create` returns a `HexDecodeError`,
not a brand-new empty catalog, so "no file exists at the path" alone does not
imply an empty catalog is returned. -/
theorem c3_counterexample :
    File.load_or_create (fun _ _ _ => none) (fun _ => none)
        { keyFile := some (.ok "zz"), dbFile := none } [] (.ok ()) =
      .err (.HexDecodeError "Invalid character") ∧
    File.load_or_create (fun _ _ _ => none) (fun _ => none)
        { keyFile := some (.ok "zz"), dbFile := none } [] (.ok ()) ≠ .ok Database.new := by
  constructor
  · decide
  · decide

/-- C3 (amended): provided the encryption key loads successfully,
`load_or_create` returns a brand-new empty catalog when no file exists at the
path; when the file exists, a read failure returns `IoError`, a decryption
failure `EncryptionError`, and a parse failure `InvalidDatabaseFormat`, and a
fully successful load returns exactly the parsed catalog — never a
substituted empty one.  (When key loading fails, its error is returned even
if no file exists.) -/
theorem c3_load_or_create_contract
    (aeadDec : List Nat → List Nat → List Nat → Option (List Nat))
    (parse : String → Option Database) (fs : Fs) (freshKey key : List Nat)
    (writeRes : Except String Unit)
    (hkey : File.load_or_generate_key fs.keyFile freshKey writeRes = .ok key) :
    (fs.dbFile = none →
      File.load_or_create aeadDec parse fs freshKey writeRes = .ok Database.new) ∧
    (∀ e, fs.dbFile = some (.error e) →
      File.load_or_create aeadDec parse fs freshKey writeRes = .err (.IoError e)) ∧
    (∀ enc e', fs.dbFile = some (.ok enc) → File.decrypt aeadDec enc key = .err e' →
      File.load_or_create aeadDec parse fs freshKey writeRes =
        .err (.EncryptionError e'.toDisplay)) ∧
    (∀ enc s, fs.dbFile = some (.ok enc) → File.decrypt aeadDec enc key = .ok s →
      parse s = none →
      File.load_or_create aeadDec parse fs freshKey writeRes =
        .err (.InvalidDatabaseFormat "Failed to deserialize database")) ∧
    (∀ enc s db, fs.dbFile = some (.ok enc) → File.decrypt aeadDec enc key = .ok s →
      parse s = some db →
      File.load_or_create aeadDec parse fs freshKey writeRes = .ok db) := by
  refine ⟨?_, ?_, ?_, ?_, ?_⟩
  · intro h
    simp only [File.load_or_create, hkey, h]
  · intro e h
    simp only [File.load_or_create, hkey, h]
  · intro enc e' h hdec
    simp only [File.load_or_create, hkey, h, hdec]
  · intro enc s h hdec hparse
    simp only [File.load_or_create, hkey, h, hdec, hparse]
  · intro enc s db h hdec hparse
    simp only [File.load_or_create, hkey, h, hdec, hparse]

/-- Witness for C3 (amended): a successfully generated key and no store file
yield the empty catalog. -/
theorem c3_witness :
    File.load_or_generate_key (none : Option (Except String String)) [0] (.ok ()) = .ok [0] ∧
    File.load_or_create (fun _ _ _ => none) (fun _ => none)
      { keyFile := none, dbFile := none } [0] (.ok ()) = .ok Database.new := by
  have hkey : File.load_or_generate_key (none : Option (Except String String)) [0] (.ok ()) =
      .ok [0] := rfl
  exact ⟨hkey, (c3_load_or_create_contract (fun _ _ _ => none) (fun _ => none)
    { keyFile := none, dbFile := none } [0] [0] (.ok ()) hkey).1 rfl⟩
